import Mathlib

/-!
Shallow embedding of the user-service credential/token core:

* `src/models/user.entity.ts`      → `User`
* `src/repositories/user.repository.ts` → `findByEmail`, `findById`, `repoCreate`,
  `repoTouch`, `seedUsers`
* `src/services/jwt.service.ts`    → `generateToken` (with `base64UrlEncode`,
  JSON serialization of the fixed payload shape)
* `src/services/auth.service.ts`   → `signUp`, `signIn`, `logout`,
  `isTokenBlacklisted`

Conventions of the embedding:
* `uuidv4()` fresh-id generation is modelled by a monotone counter `nextId`
  carried in the state (uuid uniqueness is an environmental assumption of the
  code; the counter realizes exactly the "fresh id" contract).
* Timestamps (`new Date()`, `Date.now()/1000`) are supplied explicitly as
  `now : Nat` arguments, one per operation.
* `bcrypt` hashing/verification is external, non-deterministic code; it is
  modelled by explicit function parameters `hashFn`/`verifyFn` quantified in
  the theorems.
* The JS `Map` keyed by the (always fresh) id preserves insertion order, so
  the directory is a `List User` and `Map.set` with a fresh key is `++ [user]`.
* JS exceptions (`ConflictException`, `UnauthorizedException`) are modelled
  with `Except AuthError`.
-/

namespace UserService

/-- JS `String.prototype.toLowerCase` restricted to the basic-latin range
(the only range exercised by the service's identities); `Char.toLower` is
exactly this per-character map. -/
def lowerStr (s : String) : String := ⟨s.data.map Char.toLower⟩

/-- User entity (`src/models/user.entity.ts`). -/
structure User where
  id : Nat
  email : String
  passwordHash : String
  roles : List String
  createdAt : Nat
  updatedAt : Nat
deriving Repr, DecidableEq

/-- Combined mutable state of `UserRepository` (the `users` map plus the
fresh-id source) and `AuthService` (the token blacklist `Set`). -/
structure AuthState where
  users : List User
  nextId : Nat
  blacklist : List String
deriving Repr, DecidableEq

/-! ### UserRepository (`src/repositories/user.repository.ts`) -/

/-- `UserRepository.findByEmail`: lowercase the query, return the first user
whose lowercased stored email matches. -/
def findByEmail (users : List User) (email : String) : Option User :=
  users.find? (fun u => lowerStr u.email == lowerStr email)

/-- `UserRepository.findById`. -/
def findById (users : List User) (id : Nat) : Option User :=
  users.find? (fun u => u.id == id)

/-- `UserRepository.create`: unconditionally inserts a new user with a fresh
id, lowercased email, the given roles (defaulting to `["user"]` when the given
list is empty) and both timestamps set to `now`. -/
def repoCreate (st : AuthState) (email passwordHash : String) (roles : List String)
    (now : Nat) : User × AuthState :=
  let user : User :=
    { id := st.nextId
      email := lowerStr email
      passwordHash := passwordHash
      roles := if roles.length > 0 then roles else ["user"]
      createdAt := now
      updatedAt := now }
  (user, { st with users := st.users ++ [user], nextId := st.nextId + 1 })

/-- `UserRepository.touch`: advance `updatedAt` of the user with the given id
(in place, preserving order); silently a no-op when the id is absent. -/
def repoTouch (st : AuthState) (userId : Nat) (now : Nat) : AuthState :=
  { st with
    users := st.users.map (fun u => if u.id = userId then { u with updatedAt := now } else u) }

/-! ### JwtService (`src/services/jwt.service.ts`) -/

/-- UTF-8 encoding of a single code point (what `Buffer.from(s, 'utf-8')`
does per character). -/
def utf8EncodeChar (n : Nat) : List Nat :=
  if n < 128 then [n]
  else if n < 2048 then [192 + n / 64, 128 + n % 64]
  else if n < 65536 then [224 + n / 4096, 128 + n / 64 % 64, 128 + n % 64]
  else [240 + n / 262144, 128 + n / 4096 % 64, 128 + n / 64 % 64, 128 + n % 64]

/-- UTF-8 bytes of a string. -/
def utf8Encode (s : String) : List Nat :=
  s.data.flatMap (fun c => utf8EncodeChar c.toNat)

/-- The standard base64 alphabet. -/
def b64Alphabet : List Char :=
  "ABCDEFGHIJKLMNOPQRSTUVWXYZabcdefghijklmnopqrstuvwxyz0123456789+/".data

/-- Character for a six-bit group. -/
def sextetChar (n : Nat) : Char := b64Alphabet.getD n 'A'

/-- Index of a character in the base64 alphabet. -/
def sextetVal (c : Char) : Nat := b64Alphabet.indexOf c

/-- Standard base64 of a byte sequence (with `=` padding), as produced by
`Buffer.prototype.toString('base64')`. -/
def b64EncodeBytes : List Nat → List Char
  | [] => []
  | [b0] => [sextetChar (b0 / 4), sextetChar (b0 % 4 * 16), '=', '=']
  | [b0, b1] =>
    [sextetChar (b0 / 4), sextetChar (b0 % 4 * 16 + b1 / 16), sextetChar (b1 % 16 * 4), '=']
  | b0 :: b1 :: b2 :: rest =>
    sextetChar (b0 / 4) :: sextetChar (b0 % 4 * 16 + b1 / 16) ::
      sextetChar (b1 % 16 * 4 + b2 / 64) :: sextetChar (b2 % 64) :: b64EncodeBytes rest

/-- The `+`→`-`, `/`→`_` substitution of `JwtService.base64UrlEncode`. -/
def urlSub (c : Char) : Char := if c = '+' then '-' else if c = '/' then '_' else c

/-- Inverse substitution `-`→`+`, `_`→`/` (used by relying decoders). -/
def urlUnsub (c : Char) : Char := if c = '-' then '+' else if c = '_' then '/' else c

/-- `JwtService.base64UrlEncode`: base64 of the UTF-8 bytes, then `+`→`-`,
`/`→`_`, and all `=` removed. -/
def base64UrlEncode (s : String) : String :=
  ⟨((b64EncodeBytes (utf8Encode s)).map urlSub).filter (fun c => c != '=')⟩

/-- Base64 decoding of an unpadded character sequence back to bytes. -/
def b64DecodeChars : List Char → List Nat
  | c1 :: c2 :: c3 :: c4 :: rest =>
    (sextetVal c1 * 4 + sextetVal c2 / 16) ::
      ((sextetVal c2 % 16 * 16 + sextetVal c3 / 4) ::
        ((sextetVal c3 % 4 * 64 + sextetVal c4) :: b64DecodeChars rest))
  | [c1, c2] => [sextetVal c1 * 4 + sextetVal c2 / 16]
  | [c1, c2, c3] =>
    [sextetVal c1 * 4 + sextetVal c2 / 16, sextetVal c2 % 16 * 16 + sextetVal c3 / 4]
  | _ => []

/-- Base64url decoding of a segment to its byte sequence (what a relying
service's decoder does with segment 2). -/
def base64UrlDecode (s : String) : List Nat :=
  b64DecodeChars (s.data.map urlUnsub)

/-- Lower-case hexadecimal digit. -/
def hexDigitChar (n : Nat) : Char := "0123456789abcdef".data.getD n '0'

/-- JSON escaping of one character, as performed by `JSON.stringify` on
string values. -/
def jsonEscapeChar (c : Char) : List Char :=
  if c = '"' then ['\\', '"']
  else if c = '\\' then ['\\', '\\']
  else if c = '\x08' then ['\\', 'b']
  else if c = '\x09' then ['\\', 't']
  else if c = '\x0a' then ['\\', 'n']
  else if c = '\x0c' then ['\\', 'f']
  else if c = '\x0d' then ['\\', 'r']
  else if c.toNat < 32 then
    ['\\', 'u', '0', '0', hexDigitChar (c.toNat / 16), hexDigitChar (c.toNat % 16)]
  else [c]

/-- `JSON.stringify` of a string value. -/
def jsonString (s : String) : String :=
  "\"" ++ String.mk (s.data.flatMap jsonEscapeChar) ++ "\""

/-- `JSON.stringify` of an array of strings. -/
def rolesJson (roles : List String) : String :=
  "[" ++ String.intercalate "," (roles.map jsonString) ++ "]"

/-- Decimal digit character. -/
def digitChar (n : Nat) : Char := "0123456789".data.getD n '0'

/-- Fuel-driven decimal printer (most significant digit first); with fuel
`> n` this is the standard decimal numeral of `n`. -/
def natDigitsAux : Nat → Nat → List Char
  | 0, _ => []
  | fuel + 1, n =>
    if n < 10 then [digitChar n] else natDigitsAux fuel (n / 10) ++ [digitChar (n % 10)]

/-- `JSON.stringify` of a non-negative integer: its decimal numeral. -/
def natStr (n : Nat) : String := ⟨natDigitsAux (n + 1) n⟩

/-- `JSON.stringify` of the constant JWT header object of
`JwtService.generateToken`. -/
def headerJson : String := "\x7b\"alg\":\"none\",\"typ\":\"JWT\"\x7d"

/-- `JSON.stringify` of the payload object of `JwtService.generateToken`
(fields in object-literal order: `sub`, `email`, `roles`, `iat`, `exp`). -/
def payloadJson (sub email : String) (roles : List String) (iat expVal : Nat) : String :=
  "\x7b\"sub\":" ++ jsonString sub ++ ",\"email\":" ++ jsonString email ++
    ",\"roles\":" ++ rolesJson roles ++ ",\"iat\":" ++ natStr iat ++
    ",\"exp\":" ++ natStr expVal ++ "\x7d"

/-- `JwtService.generateToken`: unsigned token
`base64url(header) ++ "." ++ base64url(payload) ++ "."`, with `iat = now`
(seconds) and `exp = now + expiresIn`, where `expiresIn` is 30 days outside
production and 24 hours in production. -/
def generateToken (userId email : String) (roles : List String) (now : Nat)
    (isProduction : Bool) : String :=
  let isDevelopment := !isProduction
  let expiresIn := if isDevelopment then 30 * 24 * 60 * 60 else 24 * 60 * 60
  base64UrlEncode headerJson ++ "." ++
    base64UrlEncode (payloadJson userId email roles now (now + expiresIn)) ++ "."

/-! ### AuthService (`src/services/auth.service.ts`) -/

/-- Business errors surfaced by `AuthService`: `ConflictException('Email
already registered')` and `UnauthorizedException('Invalid credentials')`. -/
inductive AuthError where
  | identityAlreadyRegistered
  | invalidCredentials
deriving Repr, DecidableEq

/-- `AuthResponse` DTO: the token plus the redacted user view
(`id`, `email`, `roles`; never the hash). -/
structure AuthResponse where
  accessToken : String
  userId : Nat
  userEmail : String
  userRoles : List String
deriving Repr, DecidableEq

/-- JS `signUpDto.roles || ['user']`: replaces only a missing field (an
empty array is truthy in JS and is passed through unchanged). -/
def rolesOrDefault : Option (List String) → List String
  | some rs => rs
  | none => ["user"]

/-- `AuthService.signUp`: duplicate check, hash, create, mint token. -/
def signUp (st : AuthState) (email password : String) (roles : Option (List String))
    (hashFn : String → String) (now : Nat) (isProduction : Bool) :
    Except AuthError AuthResponse × AuthState :=
  match findByEmail st.users email with
  | some _ => (Except.error AuthError.identityAlreadyRegistered, st)
  | none =>
    let passwordHash := hashFn password
    let created := repoCreate st email passwordHash (rolesOrDefault roles) now
    let user := created.1
    let accessToken := generateToken (natStr user.id) user.email user.roles now isProduction
    (Except.ok
      { accessToken := accessToken
        userId := user.id
        userEmail := user.email
        userRoles := user.roles }, created.2)

/-- `AuthService.signIn`: lookup, verify, touch, mint token; both the
unknown-identity and the wrong-password paths fail with the same
`invalidCredentials` error. -/
def signIn (st : AuthState) (email password : String)
    (verifyFn : String → String → Bool) (now : Nat) (isProduction : Bool) :
    Except AuthError AuthResponse × AuthState :=
  match findByEmail st.users email with
  | none => (Except.error AuthError.invalidCredentials, st)
  | some user =>
    if verifyFn password user.passwordHash then
      (Except.ok
        { accessToken := generateToken (natStr user.id) user.email user.roles now isProduction
          userId := user.id
          userEmail := user.email
          userRoles := user.roles }, repoTouch st user.id now)
    else
      (Except.error AuthError.invalidCredentials, st)

/-- `AuthService.logout`: add the token to the blacklist `Set` (a no-op when
already present, as for a JS `Set`). -/
def logout (st : AuthState) (token : String) : AuthState :=
  { st with
    blacklist := if st.blacklist.contains token then st.blacklist else st.blacklist ++ [token] }

/-- `AuthService.isTokenBlacklisted`. -/
def isTokenBlacklisted (st : AuthState) (token : String) : Bool :=
  st.blacklist.contains token

/-- Access token carried by a successful auth result (empty on error); the
observation a caller makes of the response body. -/
def tokenOf : Except AuthError AuthResponse → String
  | Except.ok r => r.accessToken
  | Except.error _ => ""

/-! ### Seeded initial state (`UserRepository.seedMockUsers`) -/

/-- The bcrypt hash seeded for every mock user. -/
def seedHash : String := "$2b$10$6dg8POodXtd8msXSKr0KIuN0sQskcRu4/04IWdH2nTWQdG5pbSH26"

/-- The four mock users seeded by `onModuleInit` (uuid suffixes 1–4 are
modelled as ids 1–4). -/
def seedUsers (now : Nat) : List User :=
  [ { id := 1, email := "admin@example.com", passwordHash := seedHash,
      roles := ["admin", "user"], createdAt := now, updatedAt := now },
    { id := 2, email := "user@example.com", passwordHash := seedHash,
      roles := ["user"], createdAt := now, updatedAt := now },
    { id := 3, email := "manager@example.com", passwordHash := seedHash,
      roles := ["manager", "user"], createdAt := now, updatedAt := now },
    { id := 4, email := "test@example.com", passwordHash := seedHash,
      roles := ["user"], createdAt := now, updatedAt := now } ]

/-- State right after module initialization. -/
def initialState (now : Nat) : AuthState :=
  { users := seedUsers now, nextId := 5, blacklist := [] }

/-! ### Operations for reachability (claims about every reachable state) -/

/-- One caller-visible operation of the core, carrying the values the
environment supplies (timestamps, optional roles). -/
inductive Op where
  | register (email password : String) (roles : Option (List String)) (now : Nat)
      (isProduction : Bool)
  | authenticate (email password : String) (now : Nat) (isProduction : Bool)
  | touch (userId : Nat) (now : Nat)
  | lookup (email : String)

/-- Effect of one operation on the state (`hashFn`/`verifyFn` model the
external bcrypt service). -/
def stepOp (hashFn : String → String) (verifyFn : String → String → Bool)
    (st : AuthState) : Op → AuthState
  | Op.register email password roles now isProduction =>
    (signUp st email password roles hashFn now isProduction).2
  | Op.authenticate email password now isProduction =>
    (signIn st email password verifyFn now isProduction).2
  | Op.touch userId now => repoTouch st userId now
  | Op.lookup _ => st

/-- State after an operation sequence from the seeded initial state. -/
def runOps (hashFn : String → String) (verifyFn : String → String → Bool)
    (startTime : Nat) (ops : List Op) : AuthState :=
  ops.foldl (stepOp hashFn verifyFn) (initialState startTime)

/-- The Directory uniqueness invariant of the spec: all pairs of distinct
accounts have distinct ids and distinct lowercased identities. -/
def DirInv (st : AuthState) : Prop :=
  st.users.Pairwise (fun a b => a.id ≠ b.id ∧ lowerStr a.email ≠ lowerStr b.email)

/-- Auxiliary freshness invariant: every stored id is below the counter. -/
def FreshInv (st : AuthState) : Prop :=
  ∀ u ∈ st.users, u.id < st.nextId

/-- Splitting a character sequence at `'.'` (the observation a relying
service makes with `token.split('.')`). -/
def splitDot : List Char → List (List Char)
  | [] => [[]]
  | c :: rest =>
    if c = '.' then [] :: splitDot rest
    else
      match splitDot rest with
      | [] => [[c]]
      | s :: ss => (c :: s) :: ss

/-- Decimal value of a digit-character sequence (most significant first). -/
def decimalValue (l : List Char) : Nat :=
  l.foldl (fun a c => a * 10 + (c.toNat - 48)) 0



theorem toNat_ofNat_valid {n : Nat} (h : n.isValidChar) : (Char.ofNat n).toNat = n := by
  unfold Char.ofNat
  rw [dif_pos h]
  rfl

theorem toLower_idem (c : Char) : (Char.toLower c).toLower = c.toLower := by
  unfold Char.toLower
  by_cases h : c.toNat ≥ 65 ∧ c.toNat ≤ 90
  · rw [if_pos h]
    have hv : (c.toNat + 32).isValidChar := Or.inl (by omega)
    have ht : (Char.ofNat (c.toNat + 32)).toNat = c.toNat + 32 := toNat_ofNat_valid hv
    rw [if_neg (by omega)]
  · rw [if_neg h, if_neg h]

theorem lowerStr_idem (s : String) : lowerStr (lowerStr s) = lowerStr s := by
  unfold lowerStr
  simp only [List.map_map]
  have hcomp : Char.toLower ∘ Char.toLower = Char.toLower := funext toLower_idem
  rw [hcomp]

theorem sextetChar_mem (n : Nat) : sextetChar n ∈ b64Alphabet := by
  unfold sextetChar
  rw [List.getD_eq_getElem?_getD]
  cases h : b64Alphabet[n]? with
  | none => simp only [Option.getD_none]; decide
  | some c => simpa only [Option.getD_some] using List.getElem?_mem h

theorem b64Alphabet_facts : ∀ c ∈ b64Alphabet,
    urlSub c ≠ '=' ∧ urlUnsub (urlSub c) = c ∧ urlSub c ≠ '.' := by decide

theorem sextetVal_sextetChar : ∀ n, n < 64 → sextetVal (sextetChar n) = n := by decide

theorem urlSub_sextet_bne (n : Nat) : (urlSub (sextetChar n) != '=') = true := by
  simpa [bne_iff_ne] using (b64Alphabet_facts _ (sextetChar_mem n)).1

theorem urlUnsub_urlSub_sextet (n : Nat) : urlUnsub (urlSub (sextetChar n)) = sextetChar n :=
  (b64Alphabet_facts _ (sextetChar_mem n)).2.1

theorem urlSub_pad : urlSub '=' = '=' := by decide

theorem pad_bne : (('=' : Char) != '=') = false := by decide

theorem b64_roundtrip_bytes :
    ∀ bs : List Nat, (∀ b ∈ bs, b < 256) →
      b64DecodeChars
        ((((b64EncodeBytes bs).map urlSub).filter (fun c => c != '=')).map urlUnsub) = bs
  | [] , _ => by simp [b64EncodeBytes, b64DecodeChars]
  | [b0], h => by
    have hb0 : b0 < 256 := h b0 (by simp)
    simp [b64EncodeBytes, urlSub_sextet_bne, urlUnsub_urlSub_sextet, urlSub_pad, pad_bne,
      b64DecodeChars, sextetVal_sextetChar _ (show b0 / 4 < 64 by omega),
      sextetVal_sextetChar _ (show b0 % 4 * 16 < 64 by omega)]
    omega
  | [b0, b1], h => by
    have hb0 : b0 < 256 := h b0 (by simp)
    have hb1 : b1 < 256 := h b1 (by simp)
    simp [b64EncodeBytes, urlSub_sextet_bne, urlUnsub_urlSub_sextet, urlSub_pad, pad_bne,
      b64DecodeChars, sextetVal_sextetChar _ (show b0 / 4 < 64 by omega),
      sextetVal_sextetChar _ (show b0 % 4 * 16 + b1 / 16 < 64 by omega),
      sextetVal_sextetChar _ (show b1 % 16 * 4 < 64 by omega)]
    omega
  | b0 :: b1 :: b2 :: rest, h => by
    have hb0 : b0 < 256 := h b0 (by simp)
    have hb1 : b1 < 256 := h b1 (by simp)
    have hb2 : b2 < 256 := h b2 (by simp)
    have ih := b64_roundtrip_bytes rest (fun b hb => h b (by simp [hb]))
    simp only [b64EncodeBytes, List.map_cons, List.filter_cons, urlSub_sextet_bne, if_pos,
      List.map_cons]
    simp [urlUnsub_urlSub_sextet, b64DecodeChars, ih,
      sextetVal_sextetChar _ (show b0 / 4 < 64 by omega),
      sextetVal_sextetChar _ (show b0 % 4 * 16 + b1 / 16 < 64 by omega),
      sextetVal_sextetChar _ (show b1 % 16 * 4 + b2 / 64 < 64 by omega),
      sextetVal_sextetChar _ (show b2 % 64 < 64 by omega)]
    omega


theorem char_toNat_lt (c : Char) : c.toNat < 1114112 := by
  rcases c.valid with h | h
  · exact Nat.lt_trans h (by norm_num)
  · exact h.2

theorem utf8EncodeChar_lt (n : Nat) (hn : n < 1114112) : ∀ b ∈ utf8EncodeChar n, b < 256 := by
  intro b hb
  unfold utf8EncodeChar at hb
  split_ifs at hb <;> simp at hb <;> omega

theorem utf8Encode_lt (s : String) : ∀ b ∈ utf8Encode s, b < 256 := by
  intro b hb
  unfold utf8Encode at hb
  rw [List.mem_flatMap] at hb
  obtain ⟨c, _, hbc⟩ := hb
  exact utf8EncodeChar_lt c.toNat (char_toNat_lt c) b hbc

theorem base64UrlDecode_encode (s : String) :
    base64UrlDecode (base64UrlEncode s) = utf8Encode s := by
  unfold base64UrlDecode base64UrlEncode
  exact b64_roundtrip_bytes (utf8Encode s) (utf8Encode_lt s)

theorem b64EncodeBytes_mem :
    ∀ bs : List Nat, ∀ c ∈ b64EncodeBytes bs, c ∈ b64Alphabet ∨ c = '='
  | [], c => by simp [b64EncodeBytes]
  | [b0], c => by
    simp only [b64EncodeBytes, List.mem_cons, List.not_mem_nil, or_false]
    rintro (rfl | rfl | rfl | rfl)
    · exact Or.inl (sextetChar_mem _)
    · exact Or.inl (sextetChar_mem _)
    · exact Or.inr rfl
    · exact Or.inr rfl
  | [b0, b1], c => by
    simp only [b64EncodeBytes, List.mem_cons, List.not_mem_nil, or_false]
    rintro (rfl | rfl | rfl | rfl)
    · exact Or.inl (sextetChar_mem _)
    · exact Or.inl (sextetChar_mem _)
    · exact Or.inl (sextetChar_mem _)
    · exact Or.inr rfl
  | b0 :: b1 :: b2 :: rest, c => by
    simp only [b64EncodeBytes, List.mem_cons]
    rintro (rfl | rfl | rfl | rfl | hmem)
    · exact Or.inl (sextetChar_mem _)
    · exact Or.inl (sextetChar_mem _)
    · exact Or.inl (sextetChar_mem _)
    · exact Or.inl (sextetChar_mem _)
    · exact b64EncodeBytes_mem rest c hmem

theorem base64UrlEncode_no_dot (s : String) : ∀ c ∈ (base64UrlEncode s).data, c ≠ '.' := by
  intro c hc
  unfold base64UrlEncode at hc
  simp only [List.mem_filter, List.mem_map] at hc
  obtain ⟨⟨c', hc', rfl⟩, hne⟩ := hc
  rcases b64EncodeBytes_mem _ c' hc' with hmem | rfl
  · exact (b64Alphabet_facts c' hmem).2.2
  · simp [urlSub_pad] at hne

theorem splitDot_ne_nil : ∀ l : List Char, splitDot l ≠ []
  | [] => by simp [splitDot]
  | c :: rest => by
    simp only [splitDot]
    split_ifs
    · simp
    · cases h : splitDot rest <;> simp

theorem splitDot_append (a : List Char) (r : List Char) (ha : ∀ c ∈ a, c ≠ '.') :
    splitDot (a ++ '.' :: r) = a :: splitDot r := by
  induction a with
  | nil => simp [splitDot]
  | cons c a' ih =>
    have hc : c ≠ '.' := ha c (by simp)
    have ih' := ih (fun x hx => ha x (by simp [hx]))
    simp only [List.cons_append, splitDot, if_neg hc]
    rw [show (a'.append ('.' :: r)) = a' ++ '.' :: r from rfl, ih']

theorem digitChar_mem (n : Nat) : digitChar n ∈ "0123456789".data := by
  unfold digitChar
  rw [List.getD_eq_getElem?_getD]
  cases h : ("0123456789".data)[n]? with
  | none => simp only [Option.getD_none]; decide
  | some c => simpa only [Option.getD_some] using List.getElem?_mem h

theorem digit_bounds : ∀ c ∈ "0123456789".data, 48 ≤ c.toNat ∧ c.toNat ≤ 57 := by decide

theorem digitChar_toNat : ∀ n, n < 10 → (digitChar n).toNat = 48 + n := by decide

theorem natDigitsAux_digits :
    ∀ (fuel n : Nat), ∀ c ∈ natDigitsAux fuel n, 48 ≤ c.toNat ∧ c.toNat ≤ 57 := by
  intro fuel
  induction fuel with
  | zero => intro n c hc; simp [natDigitsAux] at hc
  | succ fuel ih =>
    intro n c hc
    simp only [natDigitsAux] at hc
    split_ifs at hc
    · simp at hc
      subst hc
      exact digit_bounds _ (digitChar_mem n)
    · rw [List.mem_append] at hc
      rcases hc with hc | hc
      · exact ih _ c hc
      · simp at hc
        subst hc
        exact digit_bounds _ (digitChar_mem (n % 10))

theorem foldl_decimal_natDigitsAux :
    ∀ (fuel n a : Nat), n < fuel →
      List.foldl (fun acc c => acc * 10 + (c.toNat - 48)) a (natDigitsAux fuel n)
        = a * 10 ^ (natDigitsAux fuel n).length + n := by
  intro fuel
  induction fuel with
  | zero => omega
  | succ fuel ih =>
    intro n a hn
    by_cases h10 : n < 10
    · simp only [natDigitsAux, if_pos h10, List.foldl_cons, List.foldl_nil,
        List.length_singleton, pow_one]
      rw [digitChar_toNat n h10]
      omega
    · have hdiv : n / 10 < fuel := by
        have h1 : n / 10 < n := Nat.div_lt_self (by omega) (by omega)
        omega
      simp only [natDigitsAux, if_neg h10, List.foldl_append, List.foldl_cons, List.foldl_nil,
        List.length_append, List.length_singleton]
      rw [ih (n / 10) a hdiv, digitChar_toNat (n % 10) (by omega)]
      simp only [Nat.add_sub_cancel_left]
      rw [pow_succ]
      generalize (10 : Nat) ^ (natDigitsAux fuel (n / 10)).length = K
      have hdm : 10 * (n / 10) + n % 10 = n := Nat.div_add_mod n 10
      have hring : (a * K + n / 10) * 10 + n % 10
          = a * (K * 10) + (10 * (n / 10) + n % 10) := by ring
      rw [hring, hdm]

theorem decimalValue_natStr (n : Nat) : decimalValue (natStr n).data = n := by
  unfold decimalValue natStr
  rw [foldl_decimal_natDigitsAux (n + 1) n 0 (by omega)]
  omega

theorem natStr_digits : ∀ c ∈ (natStr n).data, 48 ≤ c.toNat ∧ c.toNat ≤ 57 :=
  fun c hc => natDigitsAux_digits (n + 1) n c hc

theorem utf8Encode_append (a b : String) :
    utf8Encode (a ++ b) = utf8Encode a ++ utf8Encode b := by
  unfold utf8Encode
  rw [String.data_append, List.flatMap_append]

theorem utf8EncodeChar_ascii {n : Nat} (h : n < 128) : utf8EncodeChar n = [n] := by
  unfold utf8EncodeChar
  rw [if_pos h]

theorem flatMap_utf8_ascii :
    ∀ l : List Char, (∀ c ∈ l, c.toNat < 128) →
      l.flatMap (fun c => utf8EncodeChar c.toNat) = l.map Char.toNat
  | [], _ => rfl
  | c :: l, h => by
    simp only [List.flatMap_cons, List.map_cons,
      utf8EncodeChar_ascii (h c (by simp)),
      flatMap_utf8_ascii l (fun x hx => h x (by simp [hx]))]
    rfl

theorem utf8Encode_natStr (n : Nat) :
    utf8Encode (natStr n) = (natStr n).data.map Char.toNat := by
  unfold utf8Encode
  exact flatMap_utf8_ascii _ (fun c hc => by have := natStr_digits c hc; omega)

theorem digits_comma_cancel :
    ∀ (xs ys r₁ r₂ : List Nat), (∀ b ∈ xs, 48 ≤ b ∧ b ≤ 57) → (∀ b ∈ ys, 48 ≤ b ∧ b ≤ 57) →
      xs ++ 44 :: r₁ = ys ++ 44 :: r₂ → xs = ys
  | [], [], _, _, _, _, _ => rfl
  | [], y :: ys, r₁, r₂, _, hy, h => by
    simp only [List.nil_append, List.cons_append, List.cons.injEq] at h
    have := hy y (by simp)
    omega
  | x :: xs, [], r₁, r₂, hx, _, h => by
    simp only [List.nil_append, List.cons_append, List.cons.injEq] at h
    have := hx x (by simp)
    omega
  | x :: xs, y :: ys, r₁, r₂, hx, hy, h => by
    simp only [List.cons_append, List.cons.injEq] at h
    obtain ⟨rfl, h2⟩ := h
    rw [digits_comma_cancel xs ys r₁ r₂ (fun b hb => hx b (by simp [hb]))
      (fun b hb => hy b (by simp [hb])) h2]

theorem map_toNat_decimal (l : List Char) :
    List.foldl (fun a b => a * 10 + (b - 48)) 0 (l.map Char.toNat) = decimalValue l := by
  unfold decimalValue
  rw [List.foldl_map]

theorem natStr_bytes_inj {m n : Nat}
    (h : (natStr m).data.map Char.toNat = (natStr n).data.map Char.toNat) : m = n := by
  have hm := decimalValue_natStr m
  have hn := decimalValue_natStr n
  rw [← map_toNat_decimal] at hm hn
  rw [h, hn] at hm
  exact hm.symm

theorem natStr_bytes_bounds (n : Nat) :
    ∀ b ∈ (natStr n).data.map Char.toNat, 48 ≤ b ∧ b ≤ 57 := by
  intro b hb
  rw [List.mem_map] at hb
  obtain ⟨c, hc, rfl⟩ := hb
  exact natStr_digits c hc

theorem generateToken_now_inj (uid email : String) (roles : List String) (prod : Bool)
    {n₁ n₂ : Nat}
    (h : generateToken uid email roles n₁ prod = generateToken uid email roles n₂ prod) :
    n₁ = n₂ := by
  simp only [generateToken] at h
  have hd := congrArg String.data h
  have hdot : ("." : String).data = ['.'] := rfl
  simp only [String.data_append, hdot, List.append_assoc, List.singleton_append] at hd
  have h1 := List.append_cancel_left hd
  have h2 := (List.cons.inj h1).2
  have h3 := List.append_cancel_right h2
  have hP := String.ext h3
  have hu := congrArg base64UrlDecode hP
  rw [base64UrlDecode_encode, base64UrlDecode_encode] at hu
  simp only [payloadJson, utf8Encode_append, List.append_assoc] at hu
  have hu1 := List.append_cancel_left hu
  have hu2 := List.append_cancel_left hu1
  have hu3 := List.append_cancel_left hu2
  have hu4 := List.append_cancel_left hu3
  have hu5 := List.append_cancel_left hu4
  have hu6 := List.append_cancel_left hu5
  have hu7 := List.append_cancel_left hu6
  have hcomma : utf8Encode ",\"exp\":" = 44 :: [34, 101, 120, 112, 34, 58] := rfl
  rw [hcomma] at hu7
  simp only [List.cons_append, utf8Encode_natStr] at hu7
  exact natStr_bytes_inj
    (digits_comma_cancel _ _ _ _ (natStr_bytes_bounds n₁) (natStr_bytes_bounds n₂) hu7)


theorem findByEmail_none_iff (users : List User) (e : String) :
    findByEmail users e = none ↔ ∀ u ∈ users, lowerStr u.email ≠ lowerStr e := by
  unfold findByEmail
  rw [List.find?_eq_none]
  constructor
  · intro h u hu
    have := h u hu
    simpa [beq_iff_eq] using this
  · intro h u hu
    simpa [beq_iff_eq] using h u hu

theorem findByEmail_of_mem (users : List User) (e : String) (u : User) (hu : u ∈ users)
    (he : lowerStr u.email = lowerStr e) : ∃ v, findByEmail users e = some v := by
  unfold findByEmail
  have hsome : (List.find? (fun v => lowerStr v.email == lowerStr e) users).isSome = true := by
    rw [List.find?_isSome]
    exact ⟨u, hu, by simpa [beq_iff_eq] using he⟩
  cases hfind : List.find? (fun v => lowerStr v.email == lowerStr e) users with
  | none => rw [hfind] at hsome; simp at hsome
  | some v => exact ⟨v, rfl⟩

theorem findByEmail_after_create (st : AuthState) (email ph : String) (roles : List String)
    (now : Nat) (h : findByEmail st.users email = none) (e' : String)
    (he : lowerStr e' = lowerStr email) :
    findByEmail ((repoCreate st email ph roles now).2).users e'
      = some (repoCreate st email ph roles now).1 := by
  unfold repoCreate findByEmail
  simp only [List.find?_append]
  have h1 : List.find? (fun v => lowerStr v.email == lowerStr e') st.users = none := by
    rw [List.find?_eq_none]
    intro v hv
    have hv' := (findByEmail_none_iff st.users email).mp h v hv
    simp only [beq_iff_eq, he]
    exact hv'
  rw [h1]
  simp only [Option.none_or, List.find?_cons]
  have h2 : (lowerStr (lowerStr email) == lowerStr e') = true := by
    rw [beq_iff_eq, lowerStr_idem, he]
  rw [h2]

theorem repoTouch_preserves (st : AuthState) (uid now : Nat)
    (h : DirInv st ∧ FreshInv st) :
    DirInv (repoTouch st uid now) ∧ FreshInv (repoTouch st uid now) := by
  obtain ⟨hd, hf⟩ := h
  constructor
  · unfold DirInv at hd ⊢
    unfold repoTouch
    simp only [List.pairwise_map]
    apply hd.imp
    intro a b hab
    obtain ⟨hid, hem⟩ := hab
    by_cases ha : a.id = uid <;> by_cases hb : b.id = uid
    · exact absurd (ha.trans hb.symm) hid
    · simp only [if_pos ha, if_neg hb]
      exact ⟨by omega, hem⟩
    · simp only [if_neg ha, if_pos hb]
      exact ⟨by omega, hem⟩
    · simp only [if_neg ha, if_neg hb]
      exact ⟨hid, hem⟩
  · unfold FreshInv at hf ⊢
    unfold repoTouch
    intro u hu
    simp only [List.mem_map] at hu
    obtain ⟨v, hv, rfl⟩ := hu
    have hvlt := hf v hv
    by_cases hvid : v.id = uid <;> simp [hvid] <;> omega

theorem repoCreate_preserves (st : AuthState) (email ph : String) (roles : List String)
    (now : Nat) (habs : findByEmail st.users email = none)
    (h : DirInv st ∧ FreshInv st) :
    DirInv (repoCreate st email ph roles now).2 ∧ FreshInv (repoCreate st email ph roles now).2 := by
  obtain ⟨hd, hf⟩ := h
  constructor
  · unfold DirInv at hd ⊢
    simp only [repoCreate]
    rw [List.pairwise_append]
    refine ⟨hd, List.pairwise_singleton _ _, ?_⟩
    intro a ha b hb
    simp only [List.mem_singleton] at hb
    subst hb
    constructor
    · have halt := hf a ha
      simp only []
      omega
    · have hane := (findByEmail_none_iff st.users email).mp habs a ha
      simpa [lowerStr_idem] using hane
  · unfold FreshInv at hf ⊢
    simp only [repoCreate]
    intro u hu
    simp only [List.mem_append, List.mem_singleton] at hu
    rcases hu with hu | rfl
    · have := hf u hu
      omega
    · simp only []
      omega

theorem signUp_state_preserves (st : AuthState) (email password : String)
    (roles : Option (List String)) (hashFn : String → String) (now : Nat) (prod : Bool)
    (h : DirInv st ∧ FreshInv st) :
    DirInv (signUp st email password roles hashFn now prod).2
      ∧ FreshInv (signUp st email password roles hashFn now prod).2 := by
  unfold signUp
  cases habs : findByEmail st.users email with
  | some u => exact h
  | none => exact repoCreate_preserves st email (hashFn password) _ now habs h

theorem signIn_state_preserves (st : AuthState) (email password : String)
    (verifyFn : String → String → Bool) (now : Nat) (prod : Bool)
    (h : DirInv st ∧ FreshInv st) :
    DirInv (signIn st email password verifyFn now prod).2
      ∧ FreshInv (signIn st email password verifyFn now prod).2 := by
  unfold signIn
  cases habs : findByEmail st.users email with
  | none => exact h
  | some u =>
    by_cases hv : verifyFn password u.passwordHash
    · simp only [hv, if_true]
      exact repoTouch_preserves st u.id now h
    · simp only [hv, if_false]
      exact h

theorem stepOp_preserves (hashFn : String → String) (verifyFn : String → String → Bool)
    (st : AuthState) (op : Op) (h : DirInv st ∧ FreshInv st) :
    DirInv (stepOp hashFn verifyFn st op) ∧ FreshInv (stepOp hashFn verifyFn st op) := by
  cases op with
  | register email password roles now prod =>
    exact signUp_state_preserves st email password roles hashFn now prod h
  | authenticate email password now prod =>
    exact signIn_state_preserves st email password verifyFn now prod h
  | touch uid now => exact repoTouch_preserves st uid now h
  | lookup _ => exact h

theorem initial_inv (t : Nat) : DirInv (initialState t) ∧ FreshInv (initialState t) := by
  constructor
  · unfold DirInv initialState seedUsers
    refine List.Pairwise.cons ?_ (List.Pairwise.cons ?_ (List.Pairwise.cons ?_
      (List.Pairwise.cons ?_ List.Pairwise.nil)))
    · intro b hb
      simp only [List.mem_cons, List.not_mem_nil, or_false] at hb
      rcases hb with rfl | rfl | rfl
      · exact (by decide :
          (1 : Nat) ≠ 2 ∧ lowerStr "admin@example.com" ≠ lowerStr "user@example.com")
      · exact (by decide :
          (1 : Nat) ≠ 3 ∧ lowerStr "admin@example.com" ≠ lowerStr "manager@example.com")
      · exact (by decide :
          (1 : Nat) ≠ 4 ∧ lowerStr "admin@example.com" ≠ lowerStr "test@example.com")
    · intro b hb
      simp only [List.mem_cons, List.not_mem_nil, or_false] at hb
      rcases hb with rfl | rfl
      · exact (by decide :
          (2 : Nat) ≠ 3 ∧ lowerStr "user@example.com" ≠ lowerStr "manager@example.com")
      · exact (by decide :
          (2 : Nat) ≠ 4 ∧ lowerStr "user@example.com" ≠ lowerStr "test@example.com")
    · intro b hb
      simp only [List.mem_cons, List.not_mem_nil, or_false] at hb
      subst hb
      exact (by decide :
        (3 : Nat) ≠ 4 ∧ lowerStr "manager@example.com" ≠ lowerStr "test@example.com")
    · intro b hb
      exact absurd hb (List.not_mem_nil b)
  · unfold FreshInv initialState seedUsers
    intro u hu
    simp only [List.mem_cons, List.not_mem_nil, or_false] at hu
    rcases hu with rfl | rfl | rfl | rfl
    · exact (by decide : (1 : Nat) < 5)
    · exact (by decide : (2 : Nat) < 5)
    · exact (by decide : (3 : Nat) < 5)
    · exact (by decide : (4 : Nat) < 5)

theorem foldl_preserves (hashFn : String → String) (verifyFn : String → String → Bool) :
    ∀ (ops : List Op) (st : AuthState), DirInv st ∧ FreshInv st →
      DirInv (ops.foldl (stepOp hashFn verifyFn) st)
        ∧ FreshInv (ops.foldl (stepOp hashFn verifyFn) st)
  | [], _, h => h
  | op :: ops, st, h =>
    foldl_preserves hashFn verifyFn ops _ (stepOp_preserves hashFn verifyFn st op h)



theorem logout_other (st : AuthState) (a t2 : String) (hne : t2 ≠ a)
    (h : isTokenBlacklisted st t2 = false) : isTokenBlacklisted (logout st a) t2 = false := by
  unfold isTokenBlacklisted at h ⊢
  unfold logout
  by_cases hc : st.blacklist.contains a
  · rw [if_pos hc]
    exact h
  · rw [if_neg hc]
    simp only [List.contains, List.elem_eq_mem, decide_eq_false_iff_not, List.mem_append,
      List.mem_singleton] at h ⊢
    rintro (hmem | rfl)
    · exact h hmem
    · exact hne rfl

theorem token_split (subjectId identity : String) (roles : List String) (now ttl : Nat) :
    splitDot (base64UrlEncode headerJson ++ "." ++
        base64UrlEncode (payloadJson subjectId identity roles now (now + ttl)) ++ ".").data
      = [(base64UrlEncode headerJson).data,
         (base64UrlEncode (payloadJson subjectId identity roles now (now + ttl))).data,
         []] := by
  have hdot : ("." : String).data = ['.'] := rfl
  have hd : (base64UrlEncode headerJson ++ "." ++
        base64UrlEncode (payloadJson subjectId identity roles now (now + ttl)) ++ ".").data
      = (base64UrlEncode headerJson).data ++ '.' ::
        ((base64UrlEncode (payloadJson subjectId identity roles now (now + ttl))).data
          ++ '.' :: []) := by
    simp [String.data_append, hdot, List.append_assoc]
  rw [hd, splitDot_append _ _ (base64UrlEncode_no_dot headerJson),
    splitDot_append _ _ (base64UrlEncode_no_dot _)]
  rfl


theorem logout_already (s : AuthState) (t : String) (h : s.blacklist.contains t = true) :
    logout s t = s := by
  unfold logout
  rw [if_pos h]

theorem logout_marks (st : AuthState) (t : String) :
    (logout st t).blacklist.contains t = true := by
  unfold logout
  by_cases hc : st.blacklist.contains t
  · rw [if_pos hc]
    exact hc
  · rw [if_neg hc]
    simp [List.contains, List.elem_eq_mem]

theorem foldl_logout_other {t2 : String} :
    ∀ (ts : List String) (st : AuthState),
      isTokenBlacklisted st t2 = false → t2 ∉ ts →
        isTokenBlacklisted (ts.foldl logout st) t2 = false
  | [], _, h, _ => h
  | a :: ts, st, h, hnot =>
    foldl_logout_other ts (logout st a)
      (logout_other st a t2 (fun he => hnot (he ▸ List.mem_cons_self a ts)) h)
      (fun hm => hnot (List.mem_cons_of_mem a hm))

/-- C1: registering an identity that is already present in the Directory
(case-insensitively) fails with `identityAlreadyRegistered` and leaves the
state unchanged; registering a fresh identity twice in sequence has the first
call succeed and the second fail with `identityAlreadyRegistered`. -/
theorem registerDuplicateRejected (st : AuthState) (identity password password' : String)
    (roles roles' : Option (List String)) (hashFn : String → String)
    (now now' : Nat) (prod prod' : Bool) :
    ((∃ u ∈ st.users, lowerStr u.email = lowerStr identity) →
      signUp st identity password roles hashFn now prod
        = (Except.error AuthError.identityAlreadyRegistered, st)) ∧
    (findByEmail st.users identity = none →
      (signUp st identity password roles hashFn now prod).1.isOk = true ∧
      (signUp (signUp st identity password roles hashFn now prod).2 identity password' roles'
          hashFn now' prod').1 = Except.error AuthError.identityAlreadyRegistered) := by
  constructor
  · rintro ⟨u, hu, he⟩
    obtain ⟨v, hv⟩ := findByEmail_of_mem st.users identity u hu he
    simp only [signUp, hv]
  · intro habs
    obtain ⟨v, hv⟩ : ∃ v,
        findByEmail ((signUp st identity password roles hashFn now prod).2).users identity
          = some v := by
      simp only [signUp, habs]
      exact ⟨_, findByEmail_after_create st identity (hashFn password) _ now habs identity rfl⟩
    constructor
    · simp only [signUp, habs]
      rfl
    · generalize hst : (signUp st identity password roles hashFn now prod).2 = st' at hv ⊢
      simp only [signUp, hv]

/-- C1 witness: `Admin@Example.Com` collides with the seeded
`admin@example.com`; `bob@example.com` registers once and is rejected the
second time. -/
theorem registerDuplicateRejected_witness :
    (signUp (initialState 0) "Admin@Example.Com" "x12345678" none (fun _ => "h") 5 false
      = (Except.error AuthError.identityAlreadyRegistered, initialState 0)) ∧
    ((signUp (initialState 0) "bob@example.com" "x12345678" none (fun _ => "h") 5 false).1.isOk
      = true) ∧
    ((signUp (signUp (initialState 0) "bob@example.com" "x12345678" none (fun _ => "h") 5
        false).2 "bob@example.com" "x12345678" none (fun _ => "h") 6 false).1
      = Except.error AuthError.identityAlreadyRegistered) := by
  have h1 := (registerDuplicateRejected (initialState 0) "Admin@Example.Com" "x12345678"
    "x12345678" none none (fun _ => "h") 5 6 false false).1
  have h2 := (registerDuplicateRejected (initialState 0) "bob@example.com" "x12345678"
    "x12345678" none none (fun _ => "h") 5 6 false false).2
  refine ⟨h1 ?_, (h2 (by decide)).1, (h2 (by decide)).2⟩
  exact ⟨{ id := 1, email := "admin@example.com", passwordHash := seedHash,
           roles := ["admin", "user"], createdAt := 0, updatedAt := 0 }, by decide, by decide⟩

/-- C2: from the seeded initial state, any sequence of register, authenticate,
touch and lookup operations leads only to states in which all pairs of
distinct accounts have distinct ids and distinct lowercased identities. -/
theorem directoryUniquenessInvariant (hashFn : String → String)
    (verifyFn : String → String → Bool) (startTime : Nat) (ops : List Op) :
    DirInv (runOps hashFn verifyFn startTime ops) :=
  (foldl_preserves hashFn verifyFn ops (initialState startTime) (initial_inv startTime)).1

/-- C3: authenticate returns the very same `invalidCredentials` error, with
the state unchanged, both when the identity is unknown and when the identity
exists but the secret does not verify; the two causes are indistinguishable
in the caller-visible result. -/
theorem invalidCredentialsIndistinguishable (st : AuthState) (identity password : String)
    (verifyFn : String → String → Bool) (now : Nat) (prod : Bool) :
    (findByEmail st.users identity = none →
      signIn st identity password verifyFn now prod
        = (Except.error AuthError.invalidCredentials, st)) ∧
    (∀ u, findByEmail st.users identity = some u →
      verifyFn password u.passwordHash = false →
      signIn st identity password verifyFn now prod
        = (Except.error AuthError.invalidCredentials, st)) := by
  constructor
  · intro h
    simp only [signIn, h]
  · intro u hu hv
    simp only [signIn, hu, hv]
    rfl

/-- C3 witness: an unknown identity and a wrong password against the seeded
`user@example.com` produce the identical error result. -/
theorem invalidCredentialsIndistinguishable_witness :
    (signIn (initialState 0) "nobody@example.com" "pw" (fun _ _ => false) 7 false
      = (Except.error AuthError.invalidCredentials, initialState 0)) ∧
    (signIn (initialState 0) "user@example.com" "pw" (fun _ _ => false) 7 false
      = (Except.error AuthError.invalidCredentials, initialState 0)) :=
  ⟨(invalidCredentialsIndistinguishable (initialState 0) "nobody@example.com" "pw"
      (fun _ _ => false) 7 false).1 (by decide),
   (invalidCredentialsIndistinguishable (initialState 0) "user@example.com" "pw"
      (fun _ _ => false) 7 false).2
     { id := 2, email := "user@example.com", passwordHash := seedHash, roles := ["user"],
       createdAt := 0, updatedAt := 0 } (by decide) rfl⟩

/-- C4: the issued token consists of exactly three dot-separated base64url
segments, the third empty; the second segment decodes to the claims JSON
whose fields are `sub = subjectId`, `email = identity`, `roles = roles`,
`iat = now` and `exp = iat + ttl`, with `ttl` 86400 s in production and
2592000 s (30 days) otherwise, so `exp > iat`. -/
theorem tokenThreeSegmentsAndClaims (subjectId identity : String) (roles : List String)
    (now : Nat) (prod : Bool) :
    splitDot (generateToken subjectId identity roles now prod).data
      = [(base64UrlEncode headerJson).data,
         (base64UrlEncode (payloadJson subjectId identity roles now
            (now + (if prod then 86400 else 2592000)))).data,
         []] ∧
    base64UrlDecode (base64UrlEncode (payloadJson subjectId identity roles now
        (now + (if prod then 86400 else 2592000))))
      = utf8Encode (payloadJson subjectId identity roles now
          (now + (if prod then 86400 else 2592000))) ∧
    now < now + (if prod then 86400 else 2592000) := by
  have hgen : generateToken subjectId identity roles now prod
      = base64UrlEncode headerJson ++ "." ++
        base64UrlEncode (payloadJson subjectId identity roles now
          (now + (if prod then 86400 else 2592000))) ++ "." := by
    cases prod <;> rfl
  refine ⟨?_, base64UrlDecode_encode _, by cases prod <;> norm_num⟩
  rw [hgen]
  exact token_split subjectId identity roles now _

/-- C5: after a successful registration of `identity`, looking the Directory
up with any string that lowercases to the same value returns exactly the
account that the registration appended, and that account's stored identity
is the lowercased form. -/
theorem caseInsensitiveLookupAfterRegister (st : AuthState)
    (identity j password : String) (roles : Option (List String))
    (hashFn : String → String) (now : Nat) (prod : Bool)
    (habs : findByEmail st.users identity = none)
    (hj : lowerStr j = lowerStr identity) :
    ∃ u : User,
      (signUp st identity password roles hashFn now prod).2.users = st.users ++ [u] ∧
      u.email = lowerStr identity ∧
      findByEmail (signUp st identity password roles hashFn now prod).2.users j = some u := by
  refine ⟨(repoCreate st identity (hashFn password) (rolesOrDefault roles) now).1, ?_, rfl, ?_⟩
  · simp only [signUp, habs]
    rfl
  · simp only [signUp, habs]
    exact findByEmail_after_create st identity (hashFn password) _ now habs j hj

/-- C5 witness: registering `A@B.com` and looking up `a@b.com` (the spec's
example) returns the created account with stored identity `a@b.com`. -/
theorem caseInsensitiveLookupAfterRegister_witness :
    ∃ u : User,
      (signUp (initialState 0) "A@B.com" "longenough1" none (fun _ => "h") 9 false).2.users
        = (initialState 0).users ++ [u] ∧
      u.email = lowerStr "A@B.com" ∧
      findByEmail
        (signUp (initialState 0) "A@B.com" "longenough1" none (fun _ => "h") 9 false).2.users
        "a@b.com" = some u :=
  caseInsensitiveLookupAfterRegister (initialState 0) "A@B.com" "a@b.com" "longenough1" none
    (fun _ => "h") 9 false (by decide) (by decide)

/-- C6: revoking a token twice is the same as revoking it once and leaves it
revoked; a token distinct from everything revoked stays unrevoked after any
sequence of revocations. -/
theorem revokeIdempotentAndIsolated (st : AuthState) (t t2 : String) (ts : List String) :
    logout (logout st t) t = logout st t ∧
    isTokenBlacklisted (logout st t) t = true ∧
    (isTokenBlacklisted st t2 = false → t2 ∉ ts →
      isTokenBlacklisted (ts.foldl logout st) t2 = false) :=
  ⟨logout_already (logout st t) t (logout_marks st t), logout_marks st t,
   fun h0 hnot => foldl_logout_other ts st h0 hnot⟩

/-- C6 witness: revoking `T1` twice keeps it revoked, and `T2` stays
unrevoked after revoking `T1` and `T3`. -/
theorem revokeIdempotentAndIsolated_witness :
    (logout (logout (initialState 0) "T1") "T1" = logout (initialState 0) "T1") ∧
    (isTokenBlacklisted (logout (initialState 0) "T1") "T1" = true) ∧
    (isTokenBlacklisted (["T1", "T3"].foldl logout (initialState 0)) "T2" = false) := by
  have h := revokeIdempotentAndIsolated (initialState 0) "T1" "T2" ["T1", "T3"]
  exact ⟨h.1, h.2.1, h.2.2 (by decide) (by decide)⟩

/-- C7 counterexample: when the successful authenticate happens in the same
second (`now = 100`) as the registration, the token it returns is the very
same string as the registration token, refuting `T2 ≠ T1` as universally
stated. -/
theorem sameSecondReauthTokenEqual :
    ((signUp (initialState 0) "alice@example.com" "longenough1" none
        (fun _ => "hh") 100 false).1.isOk = true) ∧
    ((signIn (signUp (initialState 0) "alice@example.com" "longenough1" none
        (fun _ => "hh") 100 false).2 "alice@example.com" "longenough1"
        (fun _ h => h == "hh") 100 false).1.isOk = true) ∧
    tokenOf (signIn (signUp (initialState 0) "alice@example.com" "longenough1" none
        (fun _ => "hh") 100 false).2 "alice@example.com" "longenough1"
        (fun _ h => h == "hh") 100 false).1
      = tokenOf (signUp (initialState 0) "alice@example.com" "longenough1" none
          (fun _ => "hh") 100 false).1 :=
  ⟨rfl, rfl, rfl⟩

/-- C7 (amended): after a registration at second `now₁`, a successful
authenticate for the same identity at any different second `now₂` returns a
token different from the registration token. -/
theorem laterAuthenticateFreshToken (st : AuthState) (email password password' : String)
    (roles : Option (List String)) (hashFn : String → String)
    (verifyFn : String → String → Bool) (now₁ now₂ : Nat) (prod : Bool)
    (habs : findByEmail st.users email = none)
    (hok : (signIn (signUp st email password roles hashFn now₁ prod).2 email password'
        verifyFn now₂ prod).1.isOk = true)
    (hne : now₁ ≠ now₂) :
    tokenOf (signIn (signUp st email password roles hashFn now₁ prod).2 email password'
        verifyFn now₂ prod).1
      ≠ tokenOf (signUp st email password roles hashFn now₁ prod).1 := by
  have hfind : findByEmail ((signUp st email password roles hashFn now₁ prod).2).users email
      = some (repoCreate st email (hashFn password) (rolesOrDefault roles) now₁).1 := by
    simp only [signUp, habs]
    exact findByEmail_after_create st email (hashFn password) _ now₁ habs email rfl
  set u := (repoCreate st email (hashFn password) (rolesOrDefault roles) now₁).1 with hu
  by_cases hv : verifyFn password' u.passwordHash
  · have hT2 : tokenOf (signIn (signUp st email password roles hashFn now₁ prod).2 email
        password' verifyFn now₂ prod).1
        = generateToken (natStr u.id) u.email u.roles now₂ prod := by
      simp only [signIn, hfind, hv, if_true]
      rfl
    have hT1 : tokenOf (signUp st email password roles hashFn now₁ prod).1
        = generateToken (natStr u.id) u.email u.roles now₁ prod := by
      simp only [signUp, habs]
      rfl
    rw [hT2, hT1]
    intro heq
    exact hne (generateToken_now_inj _ _ _ _ heq).symm
  · exfalso
    have herr : (signIn (signUp st email password roles hashFn now₁ prod).2 email password'
        verifyFn now₂ prod).1 = Except.error AuthError.invalidCredentials := by
      simp only [signIn, hfind]
      rw [if_neg hv]
    rw [herr] at hok
    simp [Except.isOk, Except.toBool] at hok

/-- C7 witness: registering at second 100 and authenticating at second 101
yields two different tokens. -/
theorem laterAuthenticateFreshToken_witness :
    tokenOf (signIn (signUp (initialState 0) "alice@example.com" "longenough1" none
        (fun _ => "hh") 100 false).2 "alice@example.com" "longenough1"
        (fun _ h => h == "hh") 101 false).1
      ≠ tokenOf (signUp (initialState 0) "alice@example.com" "longenough1" none
          (fun _ => "hh") 100 false).1 :=
  laterAuthenticateFreshToken (initialState 0) "alice@example.com" "longenough1" "longenough1"
    none (fun _ => "hh") (fun _ h => h == "hh") 100 101 false (by decide) rfl (by decide)

/-- C8 counterexample: the Directory already holds `user@example.com`, yet
`create` succeeds and inserts a second account with that normalized identity
(two accounts now match it), instead of failing. -/
theorem createInsertsDuplicateIdentity :
    (∃ u ∈ (initialState 0).users, lowerStr u.email = lowerStr "User@Example.com") ∧
    ((repoCreate (initialState 0) "User@Example.com" "h2" ["user"] 7).2).users.countP
        (fun u => lowerStr u.email == lowerStr "User@Example.com") = 2 := by
  constructor
  · exact ⟨{ id := 2, email := "user@example.com", passwordHash := seedHash, roles := ["user"],
             createdAt := 0, updatedAt := 0 }, by decide, by decide⟩
  · rfl

/-- C8 (amended): `create` never fails: on every state, duplicate identity or
not, it appends one account whose stored identity is the lowercased input and
whose id is fresh (uniqueness pre-checking is the Coordinator's job). -/
theorem createAlwaysInserts (st : AuthState) (email ph : String) (roles : List String)
    (now : Nat) (hfresh : FreshInv st) :
    (repoCreate st email ph roles now).2.users
        = st.users ++ [(repoCreate st email ph roles now).1] ∧
    (repoCreate st email ph roles now).1.email = lowerStr email ∧
    (repoCreate st email ph roles now).1.id ∉ st.users.map User.id := by
  refine ⟨rfl, rfl, ?_⟩
  intro hmem
  rw [List.mem_map] at hmem
  obtain ⟨u, hu, hid⟩ := hmem
  have hlt := hfresh u hu
  simp only [repoCreate] at hid
  omega

/-- C8 witness: creating a duplicate of `user@example.com` on the seeded
state appends an account with a fresh id and lowercased identity. -/
theorem createAlwaysInserts_witness :
    ((repoCreate (initialState 0) "User@Example.com" "h2" ["user"] 7).2.users
        = (initialState 0).users
          ++ [(repoCreate (initialState 0) "User@Example.com" "h2" ["user"] 7).1]) ∧
    ((repoCreate (initialState 0) "User@Example.com" "h2" ["user"] 7).1.email
        = lowerStr "User@Example.com") ∧
    ((repoCreate (initialState 0) "User@Example.com" "h2" ["user"] 7).1.id
        ∉ (initialState 0).users.map User.id) :=
  createAlwaysInserts (initialState 0) "User@Example.com" "h2" ["user"] 7
    (by unfold FreshInv; decide)

/-- C9: a successful registration with no roles, or with an empty roles list,
stores roles exactly `["user"]`; with a non-empty roles list it stores that
list verbatim. -/
theorem defaultRolesOnRegister (st : AuthState) (email password : String)
    (hashFn : String → String) (now : Nat) (prod : Bool) (rs : List String)
    (habs : findByEmail st.users email = none) :
    ((signUp st email password none hashFn now prod).2.users.map User.roles
        = st.users.map User.roles ++ [["user"]]) ∧
    ((signUp st email password (some []) hashFn now prod).2.users.map User.roles
        = st.users.map User.roles ++ [["user"]]) ∧
    (rs ≠ [] →
      (signUp st email password (some rs) hashFn now prod).2.users.map User.roles
        = st.users.map User.roles ++ [rs]) := by
  refine ⟨?_, ?_, ?_⟩
  · simp only [signUp, habs, repoCreate]
    simp [List.map_append, rolesOrDefault]
  · simp only [signUp, habs, repoCreate]
    simp [List.map_append, rolesOrDefault]
  · intro hrs
    have hpos : 0 < rs.length := List.length_pos.mpr hrs
    simp only [signUp, habs, repoCreate]
    simp [List.map_append, rolesOrDefault, if_pos hpos]

/-- C9 witness: registering `bob@example.com` with no roles, an empty list
and `["admin"]` stores `["user"]`, `["user"]` and `["admin"]`. -/
theorem defaultRolesOnRegister_witness :
    ((signUp (initialState 0) "bob@example.com" "pw123456" none (fun _ => "h") 3 false).2.users.map
        User.roles = (initialState 0).users.map User.roles ++ [["user"]]) ∧
    ((signUp (initialState 0) "bob@example.com" "pw123456" (some []) (fun _ => "h") 3
        false).2.users.map User.roles
      = (initialState 0).users.map User.roles ++ [["user"]]) ∧
    ((signUp (initialState 0) "bob@example.com" "pw123456" (some ["admin"]) (fun _ => "h") 3
        false).2.users.map User.roles
      = (initialState 0).users.map User.roles ++ [["admin"]]) := by
  have h := defaultRolesOnRegister (initialState 0) "bob@example.com" "pw123456" (fun _ => "h")
    3 false ["admin"] (by decide)
  exact ⟨h.1, h.2.1, h.2.2 (by decide)⟩

/-- C10: whenever register fails (duplicate identity) or authenticate fails
(unknown identity or wrong secret), the returned state is exactly the input
state: no account is created or touched, no token recorded, the blacklist
unmodified. -/
theorem errorPathsLeaveStateUnchanged (st : AuthState) (email password : String)
    (roles : Option (List String)) (hashFn : String → String)
    (verifyFn : String → String → Bool) (now : Nat) (prod : Bool) :
    ((signUp st email password roles hashFn now prod).1.isOk = false →
      (signUp st email password roles hashFn now prod).2 = st) ∧
    ((signIn st email password verifyFn now prod).1.isOk = false →
      (signIn st email password verifyFn now prod).2 = st) := by
  constructor
  · intro h
    cases hf : findByEmail st.users email with
    | some u => simp only [signUp, hf]
    | none =>
      rw [signUp] at h
      simp only [hf] at h
      simp [Except.isOk, Except.toBool] at h
  · intro h
    cases hf : findByEmail st.users email with
    | none => simp only [signIn, hf]
    | some u =>
      by_cases hv : verifyFn password u.passwordHash
      · rw [signIn] at h
        simp only [hf, if_pos hv] at h
        simp [Except.isOk, Except.toBool] at h
      · simp only [signIn, hf]
        rw [if_neg hv]

/-- C10 witness: the duplicate registration of `admin@example.com` and a
failed authenticate both hand back the untouched seeded state. -/
theorem errorPathsLeaveStateUnchanged_witness :
    ((signUp (initialState 0) "admin@example.com" "pw123456" none (fun _ => "h") 3 false).2
      = initialState 0) ∧
    ((signIn (initialState 0) "admin@example.com" "pw" (fun _ _ => false) 3 false).2
      = initialState 0) :=
  ⟨(errorPathsLeaveStateUnchanged (initialState 0) "admin@example.com" "pw123456" none
      (fun _ => "h") (fun _ _ => false) 3 false).1 rfl,
   (errorPathsLeaveStateUnchanged (initialState 0) "admin@example.com" "pw" none
      (fun _ => "h") (fun _ _ => false) 3 false).2 rfl⟩

end UserService
